import Mathlib

set_option maxRecDepth 4000

/-!
Shallow embedding of the LinkedIn post-analytics scraper core
(src/core/scraper.py).  Python strings are modelled as `List Char`
(code-point sequences, matching Python indexing/slicing); missing
spreadsheet cells (pandas NaN) are `Option.none`; Python dictionaries
are association lists with in-place overwrite on duplicate keys, which
reproduces CPython insertion-order semantics.  Ambient effects
(the clock in `datetime.now()`) are passed as explicit arguments.
Unicode case-mapping and whitespace classes are modelled on the ASCII
range, which covers every literal the source matches against.
-/

/-- Whitespace test modelling Python's regex class `\s` and `str.strip`
on the ASCII range (space, tab, newline, carriage return, vertical tab,
form feed). -/
def isWs (c : Char) : Bool :=
  c = ' ' || c = '\t' || c = '\n' || c = '\r' || c.toNat = 11 || c.toNat = 12

/-- ASCII decimal-digit test, modelling the regex class `\d` on the inputs used. -/
def isDigitC (c : Char) : Bool :=
  '0' ≤ c && c ≤ '9'

/-- Word-character test modelling the regex class `\w` on the ASCII range. -/
def isWordC (c : Char) : Bool :=
  c.isAlphanum || c = '_'

/-- One-character lower-casing, modelling Python `str.lower` on the ASCII range. -/
def lowerC (c : Char) : Char := c.toLower

/-- Lower-case a character sequence. -/
def lowerL (cs : List Char) : List Char := cs.map lowerC

/-- Lower-case a string, modelling Python `str.lower`. -/
def pyLower (s : String) : String := String.mk (lowerL s.data)

/-- Drop leading whitespace characters. -/
def dropWsL (cs : List Char) : List Char := cs.dropWhile (fun c => isWs c)

/-- Python `str.strip()` on character sequences: drop leading and trailing whitespace. -/
def stripL (cs : List Char) : List Char := dropWsL ((dropWsL cs.reverse).reverse)

/-- Python `str.strip()` on strings. -/
def pyStrip (s : String) : String := String.mk (stripL s.data)

/-- Substring test on character sequences, modelling Python's `in` operator. -/
def substrL (pat : List Char) : List Char → Bool
  | [] => pat.isEmpty
  | c :: t => pat.isPrefixOf (c :: t) || substrL pat t

/-- Substring test on strings, modelling Python's `in` operator. -/
def substrS (pat s : String) : Bool := substrL pat.data s.data

/-- Index of the leftmost occurrence of a literal pattern, modelling the
position at which `re.search` of an escaped literal succeeds. -/
def firstIdxOfL (pat : List Char) : List Char → Option Nat
  | [] => if pat.isEmpty then some 0 else none
  | c :: t => if pat.isPrefixOf (c :: t) then some 0 else (firstIdxOfL pat t).map (· + 1)

/-- Index of the leftmost suffix satisfying a match-here predicate, modelling
the start offset found by `re.search` for the corresponding pattern. -/
def firstIdxWhere (p : List Char → Bool) : List Char → Option Nat
  | [] => if p [] then some 0 else none
  | c :: t => if p (c :: t) then some 0 else (firstIdxWhere p t).map (· + 1)

/-- CPython dict assignment `d[k] = v` on an insertion-ordered association list:
an existing key keeps its position and gets the new value, a new key is appended. -/
def dictInsert (d : List (String × String)) (k v : String) : List (String × String) :=
  match d with
  | [] => [(k, v)]
  | (k0, v0) :: t => if k0 = k then (k0, v) :: t else (k0, v0) :: dictInsert t k v

/-- Lookup in the association-list model of a CPython dict. -/
def dictLookup (d : List (String × String)) (k : String) : Option String :=
  match d with
  | [] => none
  | (k0, v0) :: t => if k0 = k then some v0 else dictLookup t k

/-- Numeric value of a run of ASCII digits. -/
def digitsVal (cs : List Char) : Nat :=
  cs.foldl (fun a c => a * 10 + (c.toNat - 48)) 0

/-- Python `float(s)` modelled on the plain decimal forms that occur in the
export files: optional surrounding whitespace, optional sign, digits with an
optional single decimal point.  Exponent, infinity and nan literals are outside
the model; binary floating-point representation error is not modelled (values
are exact rationals). -/
def parseDecimal (s : String) : Option ℚ :=
  let cs := stripL s.data
  let signNeg := cs.head? = some '-'
  let cs := match cs with
    | '-' :: t => t
    | '+' :: t => t
    | t => t
  let intPart := cs.takeWhile isDigitC
  let rest := cs.dropWhile isDigitC
  match rest with
  | [] =>
    if intPart = [] then none
    else some ((if signNeg then -1 else 1) * (digitsVal intPart : ℚ))
  | '.' :: t =>
    let frac := t.takeWhile isDigitC
    let rest2 := t.dropWhile isDigitC
    if rest2 = [] && !(intPart = [] && frac = []) then
      some ((if signNeg then -1 else 1) *
        ((digitsVal intPart : ℚ) + (digitsVal frac : ℚ) / (10 : ℚ) ^ frac.length))
    else none
  | _ => none

/-- Fixed-point rendering with one decimal digit, modelling the format spec
`.1f` applied to an exactly represented value (ties round away from zero;
double-rounding artifacts of binary floats are outside the model). -/
def fmt1f (q : ℚ) : String :=
  let neg := q < 0
  let t : ℕ := (|q| * 10 + 1 / 2).floor.toNat
  (if neg then "-" else "") ++ Nat.repr (t / 10) ++ "." ++ Nat.repr (t % 10)

/-- Embedding of `pct_str` (src/core/scraper.py:78): converts a fraction such
as `0.275` to `27.5%`; a missing cell (pandas NaN) formats as `nan%` because
`float(nan)` succeeds in Python; a non-numeric non-empty string passes through
unchanged; an empty string yields the empty string. -/
def pct_str (val : Option String) : String :=
  match val with
  | none => "nan%"
  | some s =>
    match parseDecimal s with
    | some q => fmt1f (q * 100) ++ "%"
    | none => s

/-- One sheet of the workbook exported by LinkedIn: a name and a grid of
cells, `none` being an empty cell (pandas NaN). -/
structure Sheet where
  name : String
  cells : List (List (Option String))
deriving Repr, DecidableEq

/-- Cell of a row at a column index under the rectangular pandas view:
positions beyond the stored row are NaN padding. -/
def cellAt (row : List (Option String)) (i : Nat) : Option String :=
  (row.get? i).getD none

/-- Column count of the pandas DataFrame built from a grid: the widest row. -/
def ncolsOf (rows : List (List (Option String))) : Nat :=
  rows.foldl (fun a r => max a r.length) 0

/-- Label of a performance row: column 0 as a stripped string, empty for NaN
(`str(row.iloc[0]).strip() if pd.notna(row.iloc[0]) else ""`). -/
def normLabel (row : List (Option String)) : String :=
  ((cellAt row 0).map pyStrip).getD ""

/-- Value of a performance row: column 1 as a stripped string, empty for NaN. -/
def normValue (row : List (Option String)) : String :=
  ((cellAt row 1).map pyStrip).getD ""

/-- The key/value pair a performance row contributes to the label map, if any:
rows with an empty or literal `nan` label are skipped, the key is the
lower-cased stripped label (src/core/scraper.py:115-119). -/
def rowKvEntry (row : List (Option String)) : Option (String × String) :=
  let label := normLabel row
  let value := normValue row
  if label ≠ "" ∧ label ≠ "nan" then some (pyLower label, value) else none

/-- One step of the label-map construction loop. -/
def kvStep (kv : List (String × String)) (row : List (Option String)) :
    List (String × String) :=
  match rowKvEntry row with
  | some (k, v) => dictInsert kv k v
  | none => kv

/-- The label→value map built from the performance sheet rows
(src/core/scraper.py:114-119). -/
def buildKv (rows : List (List (Option String))) : List (String × String) :=
  rows.foldl kvStep []

/-- Embedding of the local function `get` (src/core/scraper.py:121-126):
try each synonym in order, return the value of the first map entry whose key
contains the lower-cased synonym, mapping a literal `nan` value to the empty
string; empty string when nothing matches. -/
def get_metric (kv : List (String × String)) (keys : List String) : String :=
  (keys.findSome? (fun k =>
    kv.findSome? (fun e =>
      if substrS (pyLower k) e.1 then some (if e.2 = "nan" then "" else e.2)
      else none))).getD ""

/-- State of the sentinel-delimited section scan over the performance sheet
(src/core/scraper.py:144-161). -/
structure SectState where
  reaz : Bool
  comm : Bool
  reazRows : List (String × String)
  commRows : List (String × String)
deriving Repr, DecidableEq

/-- One step of the section scan: sentinel labels toggle the active section
(and are consumed), any non-empty-label row is buffered into the active
section's list. -/
def sectStep (st : SectState) (row : List (Option String)) : SectState :=
  let label := pyLower (normLabel row)
  if substrS "reazioni in evidenza" label then
    { st with reaz := true, comm := false }
  else if substrS "commenti in evidenza" label then
    { st with comm := true, reaz := false }
  else
    let st1 :=
      if st.reaz ∧ label ≠ "" then
        { st with reazRows := st.reazRows ++ [(normLabel row, normValue row)] }
      else st
    if st1.comm ∧ label ≠ "" then
      { st1 with commRows := st1.commRows ++ [(normLabel row, normValue row)] }
    else st1

/-- The full section scan over the performance rows. -/
def scanSections (rows : List (List (Option String))) : SectState :=
  rows.foldl sectStep ⟨false, false, [], []⟩

/-- Embedding of the local function `section_val` (src/core/scraper.py:163-167):
first buffered row whose label contains the keyword (case-insensitively) with a
non-empty non-`nan` value. -/
def section_val (rows : List (String × String)) (keyword : String) : String :=
  (rows.findSome? (fun e =>
    if substrS (pyLower keyword) (pyLower e.1) ∧ e.2 ≠ "" ∧ e.2 ≠ "nan" then some e.2
    else none)).getD ""

/-- Pattern test of `Series.str.contains` for the two pattern shapes the source
passes (a plain literal, and the regex `^azienda` which anchors at the start). -/
def containsKw (kw : String) (s : String) : Bool :=
  match kw.data with
  | '^' :: t => t.isPrefixOf s.data
  | _ => substrS kw s

/-- Row filter of `top_demo`: the category column (column 0), lower-cased,
matches the keyword; NaN cells never match (`na=False`). -/
def demoMatchRow (kw : String) (row : List (Option String)) : Bool :=
  match cellAt row 0 with
  | some s => containsKw kw (pyLower s)
  | none => false

/-- The formatted parts of one demographic aggregate: first 3 matching data
rows in original order, each rendered as `value (pct)` and kept only when the
value cell is neither empty nor the string `nan`
(src/core/scraper.py:183-192). -/
def top_demo_parts (dataRows : List (List (Option String))) (kw : String) :
    List String :=
  ((dataRows.filter (demoMatchRow kw)).take 3).filterMap (fun row =>
    let val := ((cellAt row 1).map pyStrip).getD "nan"
    let pct := pct_str (cellAt row 2)
    if val ≠ "" ∧ val ≠ "nan" then some (val ++ " (" ++ pct ++ ")") else none)

/-- Embedding of the local function `top_demo` (src/core/scraper.py:183-192). -/
def top_demo (dataRows : List (List (Option String))) (kw : String) : String :=
  String.intercalate " | " (top_demo_parts dataRows kw)

/-- The dictionary returned by `parse_linkedin_export`: a field is `none` when
the corresponding key was never added to the Python dict. -/
structure ExportResult where
  post_url_export : Option String := none
  post_date : Option String := none
  post_time : Option String := none
  impressions : Option String := none
  unique_views : Option String := none
  profile_visits : Option String := none
  followers_gained : Option String := none
  reactions : Option String := none
  comments : Option String := none
  reposts : Option String := none
  saves : Option String := none
  sends : Option String := none
  reactions_top_role : Option String := none
  reactions_top_location : Option String := none
  reactions_top_industry : Option String := none
  comments_top_role : Option String := none
  comments_top_location : Option String := none
  comments_top_industry : Option String := none
  demo_seniority : Option String := none
  demo_role : Option String := none
  demo_industry : Option String := none
  demo_company_size : Option String := none
  demo_location : Option String := none
  demo_company : Option String := none
  parse_error : Option String := none
deriving Repr, DecidableEq

/-- The body of the `try` block of `parse_linkedin_export`
(src/core/scraper.py:95-199): returns the fields assigned so far together with
the message of the exception that aborted the block, if any.  The modelled
abort points are the Python runtime errors reachable on a parsed workbook: an
empty workbook (evaluating the eagerly computed default `xl.sheet_names[0]`
raises IndexError), a performance sheet narrower than two columns
(`row.iloc[1]` raises on the first row) and a demographics sheet narrower than
three columns (`df_d.columns[2]` raises after the performance fields are
already assigned). -/
def parseExportSteps (sheets : List Sheet) : ExportResult × Option String :=
  match sheets with
  | [] => ({}, some "list index out of range")
  | s0 :: restSheets =>
    let all := s0 :: restSheets
    let namesDict := all.foldl (fun d sh => dictInsert d (pyLower sh.name) sh.name) []
    let rendimento_key :=
      ((namesDict.findSome? (fun e =>
        if substrS "rendimento" e.1 || substrS "performance" e.1 then some e.2
        else none))).getD s0.name
    let demo_key : Option String :=
      match namesDict.findSome? (fun e =>
        if substrS "demograf" e.1 || substrS "demographic" e.1 then some e.2
        else none) with
      | some v => some v
      | none => restSheets.head?.map Sheet.name
    let df_r := (((all.find? (fun sh => sh.name = rendimento_key)).map Sheet.cells)).getD []
    let df_d : Option (List (List (Option String))) :=
      match demo_key with
      | some k =>
        if k = "" then none
        else some ((((all.find? (fun sh => sh.name = k)).map Sheet.cells)).getD [])
      | none => none
    if df_r ≠ [] ∧ ncolsOf df_r < 2 then
      ({}, some "single positional indexer is out-of-bounds")
    else
      let kv := buildKv df_r
      let st := scanSections df_r
      let r1 : ExportResult := {
        post_url_export := some (get_metric kv ["url post", "post url"])
        post_date := some (get_metric kv ["data di pubblicazione", "publication date"])
        post_time := some (get_metric kv ["ora di pubblicazione", "publication time"])
        impressions := some (get_metric kv ["impressioni", "impressions"])
        unique_views := some (get_metric kv ["utenti raggiunti", "unique viewers", "reach"])
        profile_visits := some (get_metric kv ["visitatori del profilo", "profile visitors"])
        followers_gained := some (get_metric kv ["follower acquisiti", "followers gained"])
        reactions := some (get_metric kv ["reazioni", "reactions"])
        comments := some (get_metric kv ["commenti", "comments"])
        reposts := some (get_metric kv ["diffusioni", "reposts", "reshares"])
        saves := some (get_metric kv ["salvataggi", "saves"])
        sends := some (get_metric kv ["invii", "sends"])
        reactions_top_role := some (section_val st.reazRows "qualifica")
        reactions_top_location := some (section_val st.reazRows "localit")
        reactions_top_industry := some (section_val st.reazRows "settore")
        comments_top_role := some (section_val st.commRows "qualifica")
        comments_top_location := some (section_val st.commRows "localit")
        comments_top_industry := some (section_val st.commRows "settore") }
      match df_d with
      | none => (r1, none)
      | some grid =>
        if ncolsOf grid < 3 then
          (r1, some "index 2 is out of bounds")
        else
          let dataRows := grid.tail
          ({ r1 with
              demo_seniority := some (top_demo dataRows "anzianit")
              demo_role := some (top_demo dataRows "qualifica")
              demo_industry := some (top_demo dataRows "settore")
              demo_company_size := some (top_demo dataRows "dimensioni azienda")
              demo_location := some (top_demo dataRows "localit")
              demo_company := some (top_demo dataRows "^azienda") }, none)

/-- Embedding of `parse_linkedin_export` (src/core/scraper.py:88-205): the
enclosing `try`/`except` catches every failure of the body and records the
first 200 characters of its message under `parse_error`, keeping the fields
assigned before the failure. -/
def parse_linkedin_export (sheets : List Sheet) : ExportResult :=
  let (r, e) := parseExportSteps sheets
  match e with
  | none => r
  | some msg => { r with parse_error := some (String.mk (msg.data.take 200)) }

/-- The per-post record dictionary initialised at the top of `scrape_post`
(src/core/scraper.py:301-331) and updated along the way.  String fields start
as the empty string; `post_url_export` and `parse_error` are keys that only
appear once `result.update(export_data)` copies them in, hence `Option`. -/
structure PostRecord where
  post_url : String := ""
  analytics_url : String := ""
  post_text : String := ""
  post_date : String := ""
  post_time : String := ""
  impressions : String := ""
  unique_views : String := ""
  profile_visits : String := ""
  followers_gained : String := ""
  reactions : String := ""
  comments : String := ""
  reposts : String := ""
  saves : String := ""
  sends : String := ""
  reactions_top_role : String := ""
  reactions_top_location : String := ""
  reactions_top_industry : String := ""
  comments_top_role : String := ""
  comments_top_location : String := ""
  comments_top_industry : String := ""
  demo_seniority : String := ""
  demo_role : String := ""
  demo_industry : String := ""
  demo_company_size : String := ""
  demo_location : String := ""
  demo_company : String := ""
  scraped_at : String := ""
  error : String := ""
  post_url_export : Option String := none
  parse_error : Option String := none
deriving Repr, DecidableEq

/-- The export-success path of `scrape_post` (src/core/scraper.py:301-331,
463-468) with the browser interactions elided: the initial record receives the
extracted post text and resolved analytics URL, is updated with the parsed
export dict (`result.update(export_data)`: only keys present in the export dict
overwrite), and finally the original input URL overwrites `post_url`. -/
def assembleExportRecord (post_url scraped_at post_text analytics_url : String)
    (e : ExportResult) : PostRecord :=
  { post_url := post_url
    analytics_url := analytics_url
    post_text := post_text
    scraped_at := scraped_at
    post_date := e.post_date.getD ""
    post_time := e.post_time.getD ""
    impressions := e.impressions.getD ""
    unique_views := e.unique_views.getD ""
    profile_visits := e.profile_visits.getD ""
    followers_gained := e.followers_gained.getD ""
    reactions := e.reactions.getD ""
    comments := e.comments.getD ""
    reposts := e.reposts.getD ""
    saves := e.saves.getD ""
    sends := e.sends.getD ""
    reactions_top_role := e.reactions_top_role.getD ""
    reactions_top_location := e.reactions_top_location.getD ""
    reactions_top_industry := e.reactions_top_industry.getD ""
    comments_top_role := e.comments_top_role.getD ""
    comments_top_location := e.comments_top_location.getD ""
    comments_top_industry := e.comments_top_industry.getD ""
    demo_seniority := e.demo_seniority.getD ""
    demo_role := e.demo_role.getD ""
    demo_industry := e.demo_industry.getD ""
    demo_company_size := e.demo_company_size.getD ""
    demo_location := e.demo_location.getD ""
    demo_company := e.demo_company.getD ""
    error := ""
    post_url_export := e.post_url_export
    parse_error := e.parse_error }

/-- Python `text.split(chr 10)` on character sequences. -/
def splitNl : List Char → List (List Char)
  | [] => [[]]
  | c :: t =>
    if c = '\n' then [] :: splitNl t
    else
      match splitNl t with
      | [] => [[c]]
      | l :: ls => (c :: l) :: ls

/-- Rejoin lines with newlines, modelling `chr(10).join(lines)`. -/
def joinNl (ls : List (List Char)) : List Char :=
  (ls.intersperse ['\n']).flatten

/-- First line index `i` with `i > minIdx` whose stripped length exceeds
`minLen`, the fallback start-boundary heuristic of both extractors
(`next((i for i, l in enumerate(lines) if ...), 0)`). -/
def firstGoodLineAux (minIdx minLen : Nat) : List (List Char) → Nat → Option Nat
  | [], _ => none
  | l :: t, i =>
    if i > minIdx ∧ (stripL l).length > minLen then some i
    else firstGoodLineAux minIdx minLen t (i + 1)

/-- The author-header literal both start-boundary regexes contain. -/
def litPub : List Char := "ha pubblicato questo post".data

/-- Tail of the Variant A start regex after the literal: a maximal whitespace
run, a bullet, a maximal whitespace run, a nonempty maximal non-whitespace run,
then an optional newline (the greedy backtracking solution of
`\s*[•·]\s*\S+` followed by an optional newline).  Returns the consumed
length. -/
def tryTailA (cs : List Char) : Option Nat :=
  let w1 := (cs.takeWhile isWs).length
  match (cs.drop w1).head? with
  | some c =>
    if c = '•' ∨ c = '·' then
      let afterB := cs.drop (w1 + 1)
      let w2 := (afterB.takeWhile isWs).length
      let nw := ((afterB.drop w2).takeWhile (fun d => !isWs d)).length
      if nw = 0 then none
      else
        let base := w1 + 1 + w2 + nw
        match (cs.drop base).head? with
        | some d => if d = '\n' then some (base + 1) else some base
        | none => some base
    else none
  | none => none

/-- Greedy choice of the literal position inside the current line for the
Variant A start regex: the dot-plus prefix consumes as much as possible, so the
rightmost viable literal occurrence (at offset between 1 and the line length)
wins.  Returns the match end relative to the match start. -/
def pubAScan (cs : List Char) : Nat → Option Nat
  | 0 => none
  | k + 1 =>
    let q := k + 1
    if litPub.isPrefixOf (cs.drop q) then
      match tryTailA (cs.drop (q + litPub.length)) with
      | some t => some (q + litPub.length + t)
      | none => pubAScan cs k
    else pubAScan cs k

/-- Match of the Variant A start regex anchored at the head of `cs`
(the pattern starts with a dot-plus, so the first character must not be a
newline); returns the match end offset. -/
def pubAHere (cs : List Char) : Option Nat :=
  match cs.head? with
  | none => none
  | some c =>
    if c = '\n' then none
    else pubAScan cs (cs.takeWhile (fun d => d ≠ '\n')).length

/-- Leftmost match of the Variant A start regex
(src/core/scraper.py:219); returns the absolute match end offset. -/
def searchPubA : List Char → Option Nat
  | [] => none
  | c :: t =>
    match pubAHere (c :: t) with
    | some e => some e
    | none => (searchPubA t).map (· + 1)

/-- The literal hashtag-marker line collapsed by both extractors. -/
def hashtagPat : List Char := "\nhashtag\n".data

/-- Replacement loop for the hashtag-marker line: the second argument counts
characters of an already-matched occurrence still to be consumed
(skip-counter form of dropping the match, kept structurally recursive). -/
def subHashtagGo : List Char → Nat → List Char
  | [], _ => []
  | _ :: t, skip + 1 => subHashtagGo t skip
  | c :: t, 0 =>
    if hashtagPat.isPrefixOf (c :: t) then ' ' :: subHashtagGo t 8
    else c :: subHashtagGo t 0

/-- Replacement of every occurrence of the hashtag-marker line by one space,
modelling `re.sub` left-to-right non-overlapping scanning
(src/core/scraper.py:228 and 288). -/
def subHashtag (cs : List Char) : List Char := subHashtagGo cs 0

/-- Either of the two truncation-marker characters of the class in
`[…\.]{3}visualizza altro`. -/
def isDotOrEll (c : Char) : Bool := c = '…' || c = '.'

/-- The truncation-marker literal. -/
def visAltroLit : List Char := "visualizza altro".data

/-- Match-here test of the end-anchored truncation-marker pattern of Variant A
(`[…\.]{3}visualizza altro` then whitespace up to the end of the text: the
dollar anchor with a greedy whitespace-star means every remaining character
must be whitespace). -/
def visAltroAnchHere (cs : List Char) : Bool :=
  match cs with
  | a :: b :: c :: rest =>
    isDotOrEll a && isDotOrEll b && isDotOrEll c && visAltroLit.isPrefixOf rest &&
      (rest.drop visAltroLit.length).all isWs
  | _ => false

/-- Removal of the end-anchored truncation marker of Variant A
(src/core/scraper.py:229): the greedy match extends to the end of the text, so
the text is cut at the leftmost match position. -/
def subVisAltroAnch (cs : List Char) : List Char :=
  match firstIdxWhere visAltroAnchHere cs with
  | some i => cs.take i
  | none => cs

/-- Embedding of `extract_post_text` (src/core/scraper.py:210-233), the
Variant A (analytics page) post-text extractor. -/
def extract_post_text (page_text : String) : String :=
  match firstIdxOfL "\nScoperta\n".data page_text.data with
  | none => ""
  | some i =>
    let block0 := page_text.data.take i
    let block1 :=
      match searchPubA block0 with
      | some endIdx => block0.drop endIdx
      | none =>
        let lines := splitNl block0
        let start := (firstGoodLineAux 5 30 lines 0).getD 0
        joinNl (lines.drop start)
    let block2 := subVisAltroAnch (subHashtag block1)
    let half := block2.length / 2
    let block3 :=
      if stripL (block2.take 50) ≠ [] ∧
          (stripL (block2.take 30)).isPrefixOf (stripL ((block2.drop half).take 50)) then
        block2.take half
      else block2
    String.mk (stripL block3)

/-- Match of the Variant B start regex anchored at the head of `cs`
(src/core/scraper.py:250-254): the author-header literal, whitespace, a
bullet, the rest of that line, its newline, then greedily up to three further
complete lines.  Returns the match end offset. -/
def consumeLinesUpTo (cs : List Char) : Nat → Nat
  | 0 => 0
  | k + 1 =>
    let r := (cs.takeWhile (fun d => d ≠ '\n')).length
    match (cs.drop r).head? with
    | some d => if d = '\n' then r + 1 + consumeLinesUpTo (cs.drop (r + 1)) k else 0
    | none => 0

/-- Match-here test for the Variant B start regex; see `consumeLinesUpTo`. -/
def pubBHere (cs : List Char) : Option Nat :=
  if litPub.isPrefixOf cs then
    let p1 := litPub.length + ((cs.drop litPub.length).takeWhile isWs).length
    match (cs.drop p1).head? with
    | some c =>
      if c = '•' ∨ c = '·' then
        let lineLen := ((cs.drop (p1 + 1)).takeWhile (fun d => d ≠ '\n')).length
        let p2 := p1 + 1 + lineLen
        match (cs.drop p2).head? with
        | some d =>
          if d = '\n' then some (p2 + 1 + consumeLinesUpTo (cs.drop (p2 + 1)) 3)
          else none
        | none => none
      else none
    | none => none
  else none

/-- Leftmost match of the Variant B start regex; returns the absolute match
end offset. -/
def searchPubB : List Char → Option Nat
  | [] => none
  | c :: t =>
    match pubBHere (c :: t) with
    | some e => some e
    | none => (searchPubB t).map (· + 1)

/-- Whitespace-star-then-newline test for the `Mi piace` end marker: some run
of whitespace characters followed by a newline starts here. -/
def wsThenNl : List Char → Bool
  | [] => false
  | c :: t => if c = '\n' then true else if isWs c then wsThenNl t else false

/-- Match-here test (on lower-cased text) of the `Mi piace` end marker,
a newline, the label, whitespace, a newline. -/
def miPiaceHere (cs : List Char) : Bool :=
  "\nmi piace".data.isPrefixOf cs && wsThenNl (cs.drop 9)

/-- Match-here test (on lower-cased text) of the numeric reaction/comment
counter end markers: a newline, a nonempty digit run, a space, the word stem,
an optional letter i, a newline. -/
def numMarkerHere (word : List Char) (cs : List Char) : Bool :=
  match cs with
  | '\n' :: t =>
    let dn := (t.takeWhile isDigitC).length
    if dn = 0 then false
    else
      match t.drop dn with
      | ' ' :: u =>
        if word.isPrefixOf u then
          match u.drop word.length with
          | 'i' :: '\n' :: _ => true
          | '\n' :: _ => true
          | _ => false
        else false
      | _ => false
  | _ => false

/-- The ordered list of end-boundary match-here tests of Variant B
(src/core/scraper.py:266-279), each applied to lower-cased text, which models
the case-insensitive search. -/
def endMarkerList : List (List Char → Bool) :=
  [ fun cs => "\nreazioni\n".data.isPrefixOf cs,
    fun cs => "\ncommenti\n".data.isPrefixOf cs,
    fun cs => "\naggiungi un commento".data.isPrefixOf cs,
    fun cs => "\nrispondi".data.isPrefixOf cs,
    miPiaceHere,
    fun cs => "\ncondividi\n".data.isPrefixOf cs,
    fun cs => "\ninvia\n".data.isPrefixOf cs,
    fun cs => "\npost correlati".data.isPrefixOf cs,
    fun cs => "\npotrebbe interessarti".data.isPrefixOf cs,
    fun cs => "\naltri post di".data.isPrefixOf cs,
    numMarkerHere "reazion".data,
    numMarkerHere "comment".data ]

/-- The end-boundary loop of Variant B (src/core/scraper.py:280-284): start
from the block length and keep every strictly smaller match start. -/
def earliestLoop (block : List Char) : Nat :=
  endMarkerList.foldl (fun earliest p =>
    match firstIdxWhere p (lowerL block) with
    | some i => if i < earliest then i else earliest
    | none => earliest) block.length

/-- The start boundary of Variant B: slice after the author-header match, or
fall back to the first line past index 10 longer than 40 characters once
stripped (src/core/scraper.py:256-262). -/
def vbStart (cs : List Char) : List Char :=
  match searchPubB cs with
  | some e => cs.drop e
  | none =>
    let lines := splitNl cs
    let start := (firstGoodLineAux 10 40 lines 0).getD 0
    joinNl (lines.drop start)

/-- Length of the match of the unanchored truncation-marker pattern of
Variant B at the head of `cs` (three marker characters, the literal, then a
greedy whitespace run). -/
def visAltroAllLen (cs : List Char) : Option Nat :=
  match cs with
  | a :: b :: c :: rest =>
    if isDotOrEll a && isDotOrEll b && isDotOrEll c && visAltroLit.isPrefixOf rest then
      some (3 + visAltroLit.length + ((rest.drop visAltroLit.length).takeWhile isWs).length)
    else none
  | _ => none

/-- Replacement loop for the unanchored truncation marker: skip-counter form
of dropping a matched occurrence, kept structurally recursive. -/
def subVisAltroAllGo : List Char → Nat → List Char
  | [], _ => []
  | _ :: t, skip + 1 => subVisAltroAllGo t skip
  | c :: t, 0 =>
    match visAltroAllLen (c :: t) with
    | some n => subVisAltroAllGo t (n - 1)
    | none => c :: subVisAltroAllGo t 0

/-- Replacement of every occurrence of the unanchored truncation marker of
Variant B by the empty string (src/core/scraper.py:289), with the `re.sub`
left-to-right non-overlapping scan. -/
def subVisAltroAll (cs : List Char) : List Char := subVisAltroAllGo cs 0

/-- The cleaned candidate body of Variant B: hashtag markers collapsed,
truncation markers removed, surrounding whitespace stripped
(src/core/scraper.py:288-290). -/
def vbCleaned (block : List Char) : List Char :=
  stripL (subVisAltroAll (subHashtag block))

/-- The body Variant B produces before the final length check: start
boundary, slice at the earliest end marker, cleanup. -/
def vbBody (cs : List Char) : List Char :=
  let block := vbStart cs
  vbCleaned (block.take (earliestLoop block))

/-- The page-not-found guard of Variant B (src/core/scraper.py:244). -/
def pageNotFoundGuard (page_text : String) : Bool :=
  substrS "Questa pagina non esiste" page_text || substrS "Page not found" page_text

/-- Embedding of `extract_post_text_from_post_page`
(src/core/scraper.py:236-296), the Variant B (post page) extractor. -/
def extract_post_text_from_post_page (page_text : String) : String :=
  if pageNotFoundGuard page_text then "[PAGE NOT FOUND]"
  else
    let block := vbBody page_text.data
    if block.length < 20 then "" else String.mk block

/-- Match at the head of `cs` of a fallback-counter pattern: the label
literal, one or more newlines (greedy), then a nonempty maximal run of digits,
dots and commas, which is the captured group. -/
def labelNumHere (label : List Char) (cs : List Char) : Option (List Char) :=
  if label.isPrefixOf cs then
    let r := cs.drop label.length
    let nl := (r.takeWhile (fun c => c = '\n')).length
    if nl = 0 then none
    else
      let g := (r.drop nl).takeWhile (fun c => isDigitC c || c = '.' || c = ',')
      if g = [] then none else some g
  else none

/-- Leftmost successful application of a match-here function, modelling
unanchored `re.search`; returns that match's captured group. -/
def searchAt (m : List Char → Option (List Char)) : List Char → Option (List Char)
  | [] => m []
  | c :: t =>
    match m (c :: t) with
    | some g => some g
    | none => searchAt m t

/-- Leftmost line-anchored successful application of a match-here function,
modelling `re.search` with a caret under `re.MULTILINE`: the match may start
only at the start of the text or right after a newline. -/
def searchML (m : List Char → Option (List Char)) : List Char → Bool → Option (List Char)
  | [], _ => none
  | c :: t, atStart =>
    if atStart then
      match m (c :: t) with
      | some g => some g
      | none => searchML m t (c = '\n')
    else searchML m t (c = '\n')

/-- The working grouping-separator removal used for the `impressions` and
`unique_views` fallbacks (src/core/scraper.py:501,503): a dot or comma is
dropped exactly when followed by three digits not themselves followed by a
digit.  The lookahead consumes nothing, so scanning continues after the
removed character. -/
def threeDigitsThenStop : List Char → Bool
  | a :: b :: d :: rest =>
    isDigitC a && isDigitC b && isDigitC d &&
      !(match rest with
        | e :: _ => isDigitC e
        | [] => false)
  | _ => false

/-- See `threeDigitsThenStop`: removal loop of the working pattern. -/
def stripSepOk : List Char → List Char
  | [] => []
  | c :: t =>
    if (c = '.' ∨ c = ',') ∧ threeDigitsThenStop t then stripSepOk t
    else c :: stripSepOk t

/-- Literal left brace used below; Python's regex engine parses the doubled
braces of the broken pattern as literal brace characters. -/
def braceL : Char := Char.ofNat 123

/-- Literal right brace used below. -/
def braceR : Char := Char.ofNat 125

/-- The grouping-separator removal the local function `after` actually
performs (src/core/scraper.py:498).  Its pattern text contains doubled braces
(an f-string escaping left-over), so the regex engine treats them as literal
brace characters: the lookahead demands a digit, three left braces, a right
brace, then no digit, which numeric text never contains, and the substitution
is a no-op on it. -/
def brokenLookahead : List Char → Bool
  | a :: b :: d :: e :: f :: rest =>
    isDigitC a && b == braceL && d == braceL && e == braceL && f == braceR &&
      !(match rest with
        | g :: _ => isDigitC g
        | [] => false)
  | _ => false

/-- See `brokenLookahead`: removal loop of the broken pattern. -/
def stripSepBroken : List Char → List Char
  | [] => []
  | c :: t =>
    if (c = '.' ∨ c = ',') ∧ brokenLookahead t then stripSepBroken t
    else c :: stripSepBroken t

/-- Embedding of the local function `after` (src/core/scraper.py:496-498):
line-anchored lookup of a labelled number, post-processed by the broken
separator removal. -/
def after_label (label : String) (cs : List Char) : String :=
  match searchML (labelNumHere label.data) cs true with
  | some g => String.mk (stripSepBroken g)
  | none => ""

/-- Embedding of `_fill_stats_from_text` (src/core/scraper.py:494-508), the
text-based statistics fallback: `impressions` and `unique_views` come from
unanchored searches with working separator removal and are only overwritten on
a match; the remaining five counters are assigned unconditionally from the
line-anchored `after` lookups. -/
def fill_stats_from_text (r : PostRecord) (text : String) : PostRecord :=
  let cs := text.data
  let r1 :=
    match searchAt (labelNumHere "Scoperta".data) cs with
    | some g => { r with impressions := String.mk (stripSepOk g) }
    | none => r
  let r2 :=
    match searchAt (labelNumHere "Impressioni".data) cs with
    | some g => { r1 with unique_views := String.mk (stripSepOk g) }
    | none => r1
  { r2 with
      reactions := after_label "Reazioni" cs
      comments := after_label "Commenti" cs
      reposts := after_label "Diffusioni post" cs
      saves := after_label "Salvataggi" cs
      sends := after_label "Invii su LinkedIn" cs }

/-- At-head match of the identifier patterns: the given literal followed by at
least ten digits; the captured group is the maximal digit run. -/
def idDigitsHere (pat : List Char) (cs : List Char) : Option (List Char) :=
  if pat.isPrefixOf cs then
    let g := (cs.drop pat.length).takeWhile isDigitC
    if 10 ≤ g.length then some g else none
  else none

/-- Digits captured by `urn:li:activity:(\d to the 10 or more)` on a URL. -/
def urnMatch (s : String) : Option String :=
  (searchAt (idDigitsHere "urn:li:activity:".data) s.data).map String.mk

/-- Digits captured by `activity-(\d to the 10 or more)` on a URL. -/
def slugMatch (s : String) : Option String :=
  (searchAt (idDigitsHere "activity-".data) s.data).map String.mk

/-- Embedding of `get_post_id_from_url` (src/core/scraper.py:691-709).  The
`now` argument is the `datetime.now().strftime` value of the call, passed
explicitly because the clock is ambient state. -/
def get_post_id_from_url (now analytics_url post_url : String)
    (fallback_idx : Nat) : String :=
  let u := if analytics_url ≠ "" then analytics_url else post_url
  match urnMatch u with
  | some d => "urn_li_activity_" ++ d
  | none =>
    match slugMatch u with
    | some d => "urn_li_activity_" ++ d
    | none => "scraped_" ++ now ++ "_" ++ Nat.repr fallback_idx

/-- Input record of the text post-processor: raw title and body. -/
structure PostData where
  title : String
  body : String
deriving Repr, DecidableEq

/-- Output record of the text post-processor. -/
structure CleanedPostData where
  title : String
  body : String
  tags : List String
deriving Repr, DecidableEq

/-- The visibility-notice phrase locating the header boundary. -/
def visibileLit : List Char := "Visibile a tutti su LinkedIn e altrove".data

/-- Header-boundary scan (src/core/scraper.py:621-626): the line after the
first line containing the visibility notice, or 0 when absent. -/
def findStartIdx : List (List Char) → Nat → Nat
  | [], _ => 0
  | l :: t, i => if substrL visibileLit l then i + 1 else findStartIdx t (i + 1)

/-- The enlarge-image footer phrase (with its typographic apostrophe). -/
def attivaLit : List Char := "Attiva per visualizzare un’immagine più grande,".data

/-- The uploaded-document footer phrase. -/
def docLit : List Char := "Il documento è stato caricato".data

/-- The liked-by footer fragment. -/
def altrePersoneLit : List Char := " altre persone".data

/-- Python `str.isdigit` on the ASCII range: nonempty and all digits. -/
def isDigitsL (cs : List Char) : Bool := !cs.isEmpty && cs.all isDigitC

/-- Line of a line list at an index (lists are never indexed out of range by
the modelled code paths). -/
def lineAt (lines : List (List Char)) (k : Nat) : List Char :=
  (lines.get? k).getD []

/-- Footer-boundary scan (src/core/scraper.py:629-637): from the header
boundary, stop at the first footer line, stepping one line back when the
preceding line is purely numeric; the list length when no footer matches. -/
def findEndIdxAux (lines : List (List Char)) : List (List Char) → Nat → Nat
  | [], _ => lines.length
  | l :: t, i =>
    let sl := stripL l
    if sl = attivaLit ∨ sl = docLit ∨ substrL altrePersoneLit sl then
      if i > 0 ∧ isDigitsL (stripL (lineAt lines (i - 1))) then i - 1 else i
    else findEndIdxAux lines t (i + 1)

/-- Footer-boundary scan entry point. -/
def findEndIdx (lines : List (List Char)) (startIdx : Nat) : Nat :=
  findEndIdxAux lines (lines.drop startIdx) startIdx

/-- Trailing-blank-line trim before the footer boundary
(src/core/scraper.py:640-641). -/
def trimBlank (lines : List (List Char)) (startIdx : Nat) : Nat → Nat
  | 0 => 0
  | e + 1 =>
    if e + 1 > startIdx ∧ stripL (lineAt lines e) = [] then trimBlank lines startIdx e
    else e + 1

/-- All matches of the hashtag token pattern (a hash sign followed by one or
more word characters) in a line, in order, modelling `re.findall`. -/
def findAllTagsGo : List Char → Nat → List (List Char)
  | [], _ => []
  | _ :: t, skip + 1 => findAllTagsGo t skip
  | c :: t, 0 =>
    if c = '#' then
      let w := t.takeWhile isWordC
      if w ≠ [] then ('#' :: w) :: findAllTagsGo t w.length
      else findAllTagsGo t 0
    else findAllTagsGo t 0

/-- See `findAllTagsGo`: entry point of the `re.findall` model. -/
def findAllTags (cs : List Char) : List (List Char) := findAllTagsGo cs 0

/-- Word-character test on the head of a remainder, the negative lookahead of
the tag-removal pattern. -/
def wordHead (cs : List Char) : Bool :=
  match cs.head? with
  | some c => isWordC c
  | none => false

/-- Removal of every occurrence of a tag literal not followed by a word
character (src/core/scraper.py:659-660), with the `re.sub` left-to-right
non-overlapping scan. -/
def removeTagAllGo (tag : List Char) : List Char → Nat → List Char
  | [], _ => []
  | _ :: t, skip + 1 => removeTagAllGo tag t skip
  | c :: t, 0 =>
    if tag ≠ [] ∧ tag.isPrefixOf (c :: t) ∧ wordHead ((c :: t).drop tag.length) = false then
      removeTagAllGo tag t (tag.length - 1)
    else c :: removeTagAllGo tag t 0

/-- See `removeTagAllGo`: entry point of the tag-removal substitution. -/
def removeTagAll (tag : List Char) (cs : List Char) : List Char :=
  removeTagAllGo tag cs 0

/-- Backwards scan for the single tag line (src/core/scraper.py:649-666): the
nearest line to the end that contains a hash sign and yields at least one tag
token; a hash-bearing line without tag tokens is skipped and the scan
continues. -/
def tagLineSearch (cleaned : List (List Char)) : Nat → Option (Nat × List (List Char))
  | 0 => none
  | i + 1 =>
    let line := lineAt cleaned i
    if substrL ['#'] line then
      let ex := findAllTags line
      if ex ≠ [] then some (i, ex) else tagLineSearch cleaned i
    else tagLineSearch cleaned i

/-- In-order deduplication of extracted tags (src/core/scraper.py:654-657). -/
def dedupTags (ex : List (List Char)) : List (List Char) :=
  ex.foldl (fun acc tag => if tag ∈ acc then acc else acc ++ [tag]) []

/-- Replacement of the tag line after tag removal: set the stripped residue,
popping the line when it became empty (src/core/scraper.py:662-665). -/
def setOrPop (cleaned : List (List Char)) (i : Nat) (nl : List Char) :
    List (List Char) :=
  if nl = [] then cleaned.take i ++ cleaned.drop (i + 1)
  else cleaned.take i ++ [nl] ++ cleaned.drop (i + 1)

theorem length_dropWhile_le (p : Char → Bool) (l : List Char) :
    (l.dropWhile p).length ≤ l.length := by
  induction l with
  | nil => simp
  | cons c t ih =>
    by_cases h : p c
    · simp only [List.dropWhile, h]
      exact ih.trans (by simp)
    · simp [List.dropWhile, h]

/-- Whitespace-run collapse, modelling `re.sub` of one-or-more whitespace
characters by a single space (src/core/scraper.py:674). -/
def collapseWsGo : List Char → Nat → List Char
  | [], _ => []
  | _ :: t, skip + 1 => collapseWsGo t skip
  | c :: t, 0 =>
    if isWs c then ' ' :: collapseWsGo t (t.takeWhile isWs).length
    else c :: collapseWsGo t 0

/-- See `collapseWsGo`: entry point of the whitespace-collapse substitution. -/
def collapseWs (cs : List Char) : List Char := collapseWsGo cs 0

/-- Title derivation (src/core/scraper.py:677-683): the body itself up to 150
characters, else the first sentence through the first period when under 150
characters, else the first 147 characters with an ellipsis marker. -/
def deriveTitle (body : List Char) : List Char :=
  if body = [] then []
  else if body.length > 150 then
    let firstSentence := body.takeWhile (fun c => c ≠ '.') ++ ['.']
    if firstSentence.length < 150 then firstSentence
    else body.take 147 ++ "...".data
  else body

/-- Embedding of `clean_scraped_post_data` (src/core/scraper.py:609-689), the
text post-processor: header/footer boundary location, trailing-blank trim,
single-tag-line hashtag extraction, newline flattening, whitespace collapse
and title derivation. -/
def clean_scraped_post_data (p : PostData) : CleanedPostData :=
  let lines := splitNl p.body.data
  let startIdx := findStartIdx lines 0
  let endIdx0 := findEndIdx lines startIdx
  let endIdx := trimBlank lines startIdx endIdx0
  let cleaned0 := (lines.drop startIdx).take (endIdx - startIdx)
  let (cleaned1, tags) :=
    match tagLineSearch cleaned0 cleaned0.length with
    | some (i, ex) =>
      let newLine := stripL (ex.foldl (fun l tag => removeTagAll tag l) (lineAt cleaned0 i))
      (setOrPop cleaned0 i newLine, dedupTags ex)
    | none => (cleaned0, [])
  let mapped := cleaned1.map (fun l => stripL (l.filter (fun c => c ≠ '\r')))
  let joined := List.intercalate " ".data (mapped.filter (fun l => l ≠ []))
  let bodyFinal := stripL (collapseWs joined)
  { title := String.mk (deriveTitle bodyFinal)
    body := String.mk bodyFinal
    tags := tags.map String.mk }

/-- Decimal decoding step inverse to the digit rendering of `Nat.repr`. -/
def decStep (a : Nat) (c : Char) : Nat := a * 10 + (c.toNat - 48)

/-- Number of digits `Nat.repr` emits. -/
def numDigits (n : Nat) : Nat :=
  if n < 10 then 1 else numDigits (n / 10) + 1
termination_by n
decreasing_by
  rename_i h
  exact Nat.div_lt_self (by omega) (by omega)

theorem numDigits_of_lt (n : Nat) (h : n < 10) : numDigits n = 1 := by
  unfold numDigits
  simp [h]

theorem numDigits_of_ge (n : Nat) (h : ¬ n < 10) : numDigits n = numDigits (n / 10) + 1 := by
  conv_lhs => unfold numDigits
  simp [h]

theorem digitChar_decode (d : Nat) (h : d < 10) : (Nat.digitChar d).toNat - 48 = d := by
  interval_cases d <;> decide

theorem toDigitsCore_decode :
    ∀ (fuel n a : Nat) (ds : List Char), n < fuel →
      (Nat.toDigitsCore 10 fuel n ds).foldl decStep a
        = ds.foldl decStep (a * 10 ^ numDigits n + n) := by
  intro fuel
  induction fuel with
  | zero => intro n a ds h; omega
  | succ f ih =>
    intro n a ds h
    unfold Nat.toDigitsCore
    dsimp only
    by_cases h0 : n / 10 = 0
    · have hn10 : n < 10 := by omega
      rw [if_pos h0]
      have hd : decStep a (Nat.digitChar (n % 10)) = a * 10 + n := by
        unfold decStep
        rw [digitChar_decode (n % 10) (Nat.mod_lt n (by omega))]
        omega
      simp only [List.foldl_cons, hd, numDigits_of_lt n hn10]
      ring_nf
    · rw [if_neg h0]
      have hlt : n / 10 < f := by
        have hds : n / 10 < n := Nat.div_lt_self (by omega) (by omega)
        omega
      rw [ih (n / 10) a (Nat.digitChar (n % 10) :: ds) hlt]
      have hd : decStep (a * 10 ^ numDigits (n / 10) + n / 10) (Nat.digitChar (n % 10))
          = a * 10 ^ (numDigits (n / 10) + 1) + n := by
        unfold decStep
        rw [digitChar_decode (n % 10) (Nat.mod_lt n (by omega))]
        have : (a * 10 ^ numDigits (n / 10) + n / 10) * 10
            = a * 10 ^ (numDigits (n / 10) + 1) + (n / 10) * 10 := by ring
        omega
      rw [List.foldl_cons, hd, numDigits_of_ge n (by omega)]

theorem repr_decode (n : Nat) : (Nat.repr n).data.foldl decStep 0 = n := by
  have h := toDigitsCore_decode (n + 1) n 0 [] (Nat.lt_succ_self n)
  simpa [Nat.repr, Nat.toDigits, List.asString] using h

theorem natRepr_injective : Function.Injective Nat.repr := by
  intro m n h
  have h2 := congrArg (fun s => s.data.foldl decStep 0) h
  simpa [repr_decode] using h2

theorem foldr_min_min (i a : Nat) (l : List Nat) :
    l.foldr min (min i a) = min i (l.foldr min a) := by
  induction l with
  | nil => simp
  | cons h t ih => simp [List.foldr_cons, ih, Nat.min_left_comm]

theorem foldl_min_opt {α : Type} (f : α → Option Nat) :
    ∀ (l : List α) (a : Nat),
      l.foldl (fun e x =>
        match f x with
        | some i => if i < e then i else e
        | none => e) a
        = (l.filterMap f).foldr min a := by
  intro l
  induction l with
  | nil => intro a; simp
  | cons x t ih =>
    intro a
    cases hfx : f x with
    | none => simp [List.foldl_cons, List.filterMap_cons, hfx, ih]
    | some i =>
      have hmin : (if i < a then i else a) = min i a := by
        by_cases h : i < a
        · simp [h, Nat.min_eq_left (Nat.le_of_lt h)]
        · simp [h, Nat.min_eq_right (Nat.le_of_not_lt h)]
      simp only [List.foldl_cons, List.filterMap_cons, hfx, hmin, ih, List.foldr_cons]
      rw [← foldr_min_min]

theorem dictLookup_dictInsert (d : List (String × String)) (k v key : String) :
    dictLookup (dictInsert d k v) key
      = if k = key then some v else dictLookup d key := by
  induction d with
  | nil =>
    by_cases h : k = key <;> simp [dictInsert, dictLookup, h]
  | cons e t ih =>
    obtain ⟨k0, v0⟩ := e
    by_cases h0 : k0 = k
    · subst h0
      by_cases h1 : k0 = key <;> simp [dictInsert, dictLookup, h1]
    · by_cases h1 : k0 = key
      · subst h1
        have hk : ¬ k = k0 := fun he => h0 he.symm
        simp [dictInsert, dictLookup, h0, hk]
      · simp [dictInsert, dictLookup, h0, h1, ih]

theorem le_ncolsOf_aux (rows : List (List (Option String))) :
    ∀ a : Nat, a ≤ rows.foldl (fun x r => max x r.length) a := by
  induction rows with
  | nil => intro a; simp
  | cons r t ih =>
    intro a
    calc a ≤ max a r.length := Nat.le_max_left _ _
    _ ≤ t.foldl (fun x r => max x r.length) (max a r.length) := ih _

theorem le_ncolsOf_of_mem (rows : List (List (Option String)))
    (r : List (Option String)) (hm : r ∈ rows) : r.length ≤ ncolsOf rows := by
  unfold ncolsOf
  generalize 0 = a
  induction rows generalizing a with
  | nil => cases hm
  | cons r0 t ih =>
    rcases List.mem_cons.mp hm with he | ht
    · subst he
      calc r.length ≤ max a r.length := Nat.le_max_right _ _
      _ ≤ t.foldl (fun x r => max x r.length) (max a r.length) := le_ncolsOf_aux t _
    · exact ih ht _

/-- The value assigned by the last row among those contributing a given
normalized label — the characterization of CPython dict overwrite the label
map actually satisfies. -/
def lastLabelValue (rows : List (List (Option String))) (key : String) : Option String :=
  rows.foldl (fun acc r =>
    match rowKvEntry r with
    | some (k, v) => if k = key then some v else acc
    | none => acc) none

theorem dictLookup_buildKv_aux :
    ∀ (rows : List (List (Option String))) (acc : List (String × String)) (key : String),
      dictLookup (rows.foldl kvStep acc) key
        = rows.foldl (fun a r =>
            match rowKvEntry r with
            | some (k, v) => if k = key then some v else a
            | none => a) (dictLookup acc key) := by
  intro rows
  induction rows with
  | nil => intro acc key; rfl
  | cons r t ih =>
    intro acc key
    simp only [List.foldl_cons]
    rw [ih]
    congr 1
    unfold kvStep
    cases hr : rowKvEntry r with
    | none => rfl
    | some kv =>
      obtain ⟨k, v⟩ := kv
      exact dictLookup_dictInsert acc k v key

theorem findSome_metric_dictInsert_irrel (pat : String) (kv : List (String × String))
    (k v : String) (h : substrS pat k = false) :
    (dictInsert kv k v).findSome? (fun e =>
        if substrS pat e.1 then some (if e.2 = "nan" then "" else e.2) else none)
      = kv.findSome? (fun e =>
        if substrS pat e.1 then some (if e.2 = "nan" then "" else e.2) else none) := by
  induction kv with
  | nil => simp [dictInsert, List.findSome?, h]
  | cons e t ih =>
    obtain ⟨k0, v0⟩ := e
    by_cases h0 : k0 = k
    · subst h0
      simp [dictInsert, List.findSome?, h]
    · by_cases hp : substrS pat k0 = true
      · simp [dictInsert, h0, List.findSome?, hp]
      · simp only [Bool.not_eq_true] at hp
        simp [dictInsert, h0, List.findSome?, hp, ih]

theorem findSome_metric_dictInsert_hit (pat : String) (kv : List (String × String))
    (k v : String) (hall : ∀ e ∈ kv, substrS pat e.1 = false) (hk : substrS pat k = true) :
    (dictInsert kv k v).findSome? (fun e =>
        if substrS pat e.1 then some (if e.2 = "nan" then "" else e.2) else none)
      = some (if v = "nan" then "" else v) := by
  induction kv with
  | nil => simp [dictInsert, List.findSome?, hk]
  | cons e t ih =>
    obtain ⟨k0, v0⟩ := e
    have h0f : substrS pat k0 = false := hall (k0, v0) (List.mem_cons_self _ _)
    have h0 : k0 ≠ k := by
      intro he
      rw [he, hk] at h0f
      exact Bool.noConfusion h0f
    simp only [dictInsert, if_neg h0, List.findSome?, h0f]
    exact ih (fun e he => hall e (List.mem_cons_of_mem _ he))

theorem findSome_metric_foldl_irrel (pat : String) :
    ∀ (rows : List (List (Option String))) (acc : List (String × String)),
      (∀ r ∈ rows, ∀ k v, rowKvEntry r = some (k, v) → substrS pat k = false) →
      (rows.foldl kvStep acc).findSome? (fun e =>
          if substrS pat e.1 then some (if e.2 = "nan" then "" else e.2) else none)
        = acc.findSome? (fun e =>
          if substrS pat e.1 then some (if e.2 = "nan" then "" else e.2) else none) := by
  intro rows
  induction rows with
  | nil => intro acc _; rfl
  | cons r t ih =>
    intro acc hall
    simp only [List.foldl_cons]
    rw [ih _ (fun r2 h2 => hall r2 (List.mem_cons_of_mem _ h2))]
    unfold kvStep
    cases hr : rowKvEntry r with
    | none => rfl
    | some kv =>
      obtain ⟨k, v⟩ := kv
      exact findSome_metric_dictInsert_irrel pat acc k v
        (hall r (List.mem_cons_self _ _) k v hr)

theorem parseExportSteps_single (sheet : Sheet)
    (h1 : substrS "demograf" (pyLower sheet.name) = false)
    (h2 : substrS "demographic" (pyLower sheet.name) = false)
    (h3 : sheet.cells ≠ [])
    (h4 : ¬ ncolsOf sheet.cells < 2) :
    parseExportSteps [sheet] =
      ({ post_url_export := some (get_metric (buildKv sheet.cells) ["url post", "post url"])
         post_date := some (get_metric (buildKv sheet.cells)
           ["data di pubblicazione", "publication date"])
         post_time := some (get_metric (buildKv sheet.cells)
           ["ora di pubblicazione", "publication time"])
         impressions := some (get_metric (buildKv sheet.cells)
           ["impressioni", "impressions"])
         unique_views := some (get_metric (buildKv sheet.cells)
           ["utenti raggiunti", "unique viewers", "reach"])
         profile_visits := some (get_metric (buildKv sheet.cells)
           ["visitatori del profilo", "profile visitors"])
         followers_gained := some (get_metric (buildKv sheet.cells)
           ["follower acquisiti", "followers gained"])
         reactions := some (get_metric (buildKv sheet.cells) ["reazioni", "reactions"])
         comments := some (get_metric (buildKv sheet.cells) ["commenti", "comments"])
         reposts := some (get_metric (buildKv sheet.cells)
           ["diffusioni", "reposts", "reshares"])
         saves := some (get_metric (buildKv sheet.cells) ["salvataggi", "saves"])
         sends := some (get_metric (buildKv sheet.cells) ["invii", "sends"])
         reactions_top_role := some (section_val (scanSections sheet.cells).reazRows "qualifica")
         reactions_top_location := some (section_val (scanSections sheet.cells).reazRows "localit")
         reactions_top_industry := some (section_val (scanSections sheet.cells).reazRows "settore")
         comments_top_role := some (section_val (scanSections sheet.cells).commRows "qualifica")
         comments_top_location := some (section_val (scanSections sheet.cells).commRows "localit")
         comments_top_industry := some (section_val (scanSections sheet.cells).commRows "settore") },
       none) := by
  unfold parseExportSteps
  dsimp only
  have hfind : [sheet].find? (fun sh => sh.name = sheet.name) = some sheet := by
    simp [List.find?]
  by_cases hr : (substrS "rendimento" (pyLower sheet.name)
      || substrS "performance" (pyLower sheet.name)) = true
  · simp [dictInsert, List.findSome?, hr, h1, h2, hfind, h3, h4]
  · simp only [Bool.not_eq_true] at hr
    simp [dictInsert, List.findSome?, hr, h1, h2, hfind, h3, h4]

theorem firstIdxOfL_eq_none (pat : List Char) :
    ∀ cs : List Char, substrL pat cs = false → firstIdxOfL pat cs = none := by
  intro cs
  induction cs with
  | nil =>
    intro h
    simp only [substrL] at h
    simp [firstIdxOfL, h]
  | cons c t ih =>
    intro h
    simp only [substrL, Bool.or_eq_false_iff] at h
    simp [firstIdxOfL, h.1, ih h.2]

/-- Claim C10: if the analytics-page text does not contain the sentinel line
(newline, `Scoperta`, newline), the Variant A extractor returns the empty
string, regardless of any post text the page carries. -/
theorem c10_no_sentinel_empty (s : String)
    (h : substrS "\nScoperta\n" s = false) :
    extract_post_text s = "" := by
  unfold extract_post_text
  rw [firstIdxOfL_eq_none _ _ h]

theorem c10_no_sentinel_empty_witness :
    substrS "\nScoperta\n" "Mario ha pubblicato questo post • 2h\ncorpo del post" = false ∧
    extract_post_text "Mario ha pubblicato questo post • 2h\ncorpo del post" = "" :=
  ⟨by decide, c10_no_sentinel_empty _ (by decide)⟩

/-- Claim C5: if the page text contains either page-not-found indicator, the
Variant B extractor returns the fixed sentinel and never a slice of the page
text. -/
theorem c5_page_not_found_sentinel (s : String)
    (h : substrS "Questa pagina non esiste" s = true ∨ substrS "Page not found" s = true) :
    extract_post_text_from_post_page s = "[PAGE NOT FOUND]" := by
  unfold extract_post_text_from_post_page pageNotFoundGuard
  rcases h with h | h <;> simp [h]

theorem c5_page_not_found_sentinel_witness :
    (substrS "Questa pagina non esiste" "Oops. Questa pagina non esiste, torna indietro." = true ∨
      substrS "Page not found" "Oops. Questa pagina non esiste, torna indietro." = true) ∧
    extract_post_text_from_post_page "Oops. Questa pagina non esiste, torna indietro."
      = "[PAGE NOT FOUND]" :=
  ⟨Or.inl (by decide), c5_page_not_found_sentinel _ (Or.inl (by decide))⟩

/-- Claim C7: when the page is not a not-found page and the body left after
boundary slicing and cleanup is shorter than 20 characters, the Variant B
extractor returns the empty string rather than the short text. -/
theorem c7_short_body_empty (s : String)
    (h1 : pageNotFoundGuard s = false)
    (h2 : (vbBody s.data).length < 20) :
    extract_post_text_from_post_page s = "" := by
  unfold extract_post_text_from_post_page
  simp [h1, h2]

theorem c7_short_body_empty_witness :
    pageNotFoundGuard "post breve" = false ∧
    (vbBody "post breve".data).length < 20 ∧
    extract_post_text_from_post_page "post breve" = "" :=
  ⟨by decide, by decide, c7_short_body_empty _ (by decide) (by decide)⟩

/-- Claim C3 (code bug): on the page text `Reazioni`, newline, `1.234`, the
text fallback stores `1.234` for `reactions` because the separator-stripping
pattern of the local `after` helper contains doubled braces and can never
match, while the working pattern used for the impressions lookups maps the
same digits to `1234` as the claim demands. -/
theorem c3_fallback_divergence :
    (fill_stats_from_text {} "Reazioni\n1.234").reactions = "1.234" ∧
    (fill_stats_from_text {} "Reazioni\n1.234").reactions ≠ "1234" ∧
    String.mk (stripSepOk "1.234".data) = "1234" ∧
    String.mk (stripSepBroken "1.234".data) = "1.234" ∧
    (fill_stats_from_text {} "Scoperta\n1.234").impressions = "1234" := by
  refine ⟨by decide, by decide, by decide, by decide, by decide⟩

theorem parseExportSteps_fst_parse_error_none (f : List Sheet) :
    (parseExportSteps f).1.parse_error = none := by
  unfold parseExportSteps
  split
  · rfl
  · dsimp only
    split
    · rfl
    · split
      · rfl
      · split
        · rfl
        · rfl

/-- Claim C4 (totality): the export parser catches every modelled runtime
failure of its body — the public function always returns a record whose
`parse_error` field is exactly the (truncated) message of the aborting
exception when one occurred and is absent otherwise; concretely, an empty
workbook and a one-column performance sheet yield a record with a diagnostic
and no data fields, and the two post-text extractors and the text
post-processor map the empty input to defined empty output. -/
theorem c4_core_total :
    (∀ f : List Sheet,
      (parse_linkedin_export f).parse_error
        = ((parseExportSteps f).2).map (fun e => String.mk (e.data.take 200))) ∧
    parse_linkedin_export [] = { parse_error := some "list index out of range" } ∧
    (parse_linkedin_export [⟨"sheet1", [[some "solo"]]⟩]).parse_error
      = some "single positional indexer is out-of-bounds" ∧
    (parse_linkedin_export [⟨"sheet1", [[some "solo"]]⟩]).impressions = none ∧
    extract_post_text "" = "" ∧
    extract_post_text_from_post_page "" = "" ∧
    clean_scraped_post_data ⟨"", ""⟩ = ⟨"", "", []⟩ ∧
    fill_stats_from_text {} "" = {} := by
  refine ⟨?_, by decide, by decide, by decide, by decide, by decide, by decide, by decide⟩
  intro f
  have hpe := parseExportSteps_fst_parse_error_none f
  unfold parse_linkedin_export
  rcases hsteps : parseExportSteps f with ⟨r, e⟩
  rw [hsteps] at hpe
  cases e with
  | none => simpa using hpe
  | some msg => simp

/-- Specification form of the Variant B end boundary, following the spec's
words: the minimum start offset over all case-insensitive marker matches,
defaulting to the text length when no marker matches. -/
def endBoundarySpec (block : List Char) : Nat :=
  (endMarkerList.filterMap (fun p => firstIdxWhere p (lowerL block))).foldr min block.length

theorem earliestLoop_eq_spec (block : List Char) :
    earliestLoop block = endBoundarySpec block := by
  unfold earliestLoop endBoundarySpec
  exact foldl_min_opt (fun p => firstIdxWhere p (lowerL block)) endMarkerList block.length

/-- Claim C6: the Variant B extractor slices the body at the minimum start
offset over all case-insensitive end-marker matches, and at end-of-text when
no marker matches. -/
theorem c6_end_boundary_min (s : String)
    (h : pageNotFoundGuard s = false) :
    (extract_post_text_from_post_page s =
      (let b := vbStart s.data
       let cut := vbCleaned (b.take (endBoundarySpec b))
       if cut.length < 20 then "" else String.mk cut)) ∧
    ((∀ p ∈ endMarkerList, firstIdxWhere p (lowerL (vbStart s.data)) = none) →
      endBoundarySpec (vbStart s.data) = (vbStart s.data).length) := by
  constructor
  · unfold extract_post_text_from_post_page vbBody
    simp only [h, Bool.false_eq_true, if_false, earliestLoop_eq_spec]
  · intro hall
    unfold endBoundarySpec
    rw [List.filterMap_eq_nil_iff.mpr hall]
    rfl

theorem c6_end_boundary_min_witness :
    pageNotFoundGuard "xx ha pubblicato questo post • 2h\nIl corpo del post con testo abbondante.\nCommenti\nfine" = false ∧
    (extract_post_text_from_post_page
        "xx ha pubblicato questo post • 2h\nIl corpo del post con testo abbondante.\nCommenti\nfine" =
      (let b := vbStart ("xx ha pubblicato questo post • 2h\nIl corpo del post con testo abbondante.\nCommenti\nfine").data
       let cut := vbCleaned (b.take (endBoundarySpec b))
       if cut.length < 20 then "" else String.mk cut)) :=
  ⟨by decide, (c6_end_boundary_min _ (by decide)).1⟩

/-- Claim C8: a demographic aggregate never holds more than 3 entries, and it
is unchanged under any reordering of the table's data rows that preserves the
relative order of the rows matching the category keyword. -/
theorem c8_demo_reorder_invariant (kw : String)
    (rows rows2 : List (List (Option String)))
    (hperm : rows.Perm rows2)
    (hfilter : rows.filter (demoMatchRow kw) = rows2.filter (demoMatchRow kw)) :
    top_demo rows kw = top_demo rows2 kw ∧ (top_demo_parts rows kw).length ≤ 3 := by
  constructor
  · unfold top_demo top_demo_parts
    rw [hfilter]
  · unfold top_demo_parts
    calc (((rows.filter (demoMatchRow kw)).take 3).filterMap _).length
        ≤ ((rows.filter (demoMatchRow kw)).take 3).length := List.length_filterMap_le _ _
    _ ≤ 3 := List.length_take_le _ _

theorem c8_demo_reorder_invariant_witness :
    ([[some "Settore tecnologico", some "IT", none],
      [some "Località", some "Milano", none]].Perm
      [[some "Località", some "Milano", none],
       [some "Settore tecnologico", some "IT", none]]) ∧
    ([[some "Settore tecnologico", some "IT", none],
      [some "Località", some "Milano", none]].filter (demoMatchRow "settore")
      = [[some "Località", some "Milano", none],
         [some "Settore tecnologico", some "IT", none]].filter (demoMatchRow "settore")) ∧
    top_demo [[some "Settore tecnologico", some "IT", none],
      [some "Località", some "Milano", none]] "settore"
      = top_demo [[some "Località", some "Milano", none],
        [some "Settore tecnologico", some "IT", none]] "settore" ∧
    (top_demo_parts [[some "Settore tecnologico", some "IT", none],
      [some "Località", some "Milano", none]] "settore").length ≤ 3 := by
  refine ⟨List.Perm.swap _ _ _, by decide, ?_⟩
  exact c8_demo_reorder_invariant "settore" _ _ (List.Perm.swap _ _ _) (by decide)

theorem string_append_cancel_left (x a b : String) (h : x ++ a = x ++ b) : a = b := by
  have h2 : x.data ++ a.data = x.data ++ b.data := congrArg String.data h
  have h3 : a.data = b.data := List.append_cancel_left h2
  cases a
  cases b
  exact congrArg String.mk h3

/-- Claim C9: on a URL whose chosen form contains the activity URN followed by
at least ten digits the resolver returns the tag-prefixed digits; when neither
the URN pattern nor the activity slug pattern matches, it returns the
timestamp-based identifier, and two different sequence indices within the same
second (same formatted clock value) give distinct identifiers. -/
theorem c9_post_id_resolution (now a p : String) (i j : Nat) :
    (∀ d, urnMatch (if a ≠ "" then a else p) = some d →
      get_post_id_from_url now a p i = "urn_li_activity_" ++ d) ∧
    (urnMatch (if a ≠ "" then a else p) = none →
      slugMatch (if a ≠ "" then a else p) = none →
      i ≠ j →
      get_post_id_from_url now a p i = "scraped_" ++ now ++ "_" ++ Nat.repr i ∧
      get_post_id_from_url now a p i ≠ get_post_id_from_url now a p j) := by
  constructor
  · intro d hd
    unfold get_post_id_from_url
    simp only [hd]
  · intro h1 h2 hij
    constructor
    · unfold get_post_id_from_url
      simp only [h1, h2]
    · unfold get_post_id_from_url
      simp only [h1, h2]
      intro heq
      have h3 : Nat.repr i = Nat.repr j :=
        string_append_cancel_left ("scraped_" ++ now ++ "_") _ _ (by
          simpa [String.append_assoc] using heq)
      exact hij (natRepr_injective h3)

theorem c9_post_id_resolution_witness :
    get_post_id_from_url "20260101120000" ""
      "https://www.linkedin.com/feed/update/urn:li:activity:7123456789012/" 0
      = "urn_li_activity_7123456789012" ∧
    get_post_id_from_url "20260101120000" "" "https://example.com/nothing" 0
      = "scraped_20260101120000_0" ∧
    get_post_id_from_url "20260101120000" "" "https://example.com/nothing" 0
      ≠ get_post_id_from_url "20260101120000" "" "https://example.com/nothing" 1 := by
  refine ⟨?_, ?_, ?_⟩
  · exact ((c9_post_id_resolution "20260101120000" ""
      "https://www.linkedin.com/feed/update/urn:li:activity:7123456789012/" 0 0).1
      "7123456789012" (by decide)).trans (by decide)
  · exact (((c9_post_id_resolution "20260101120000" "" "https://example.com/nothing" 0 1).2
      (by decide) (by decide) (by decide)).1).trans (by decide)
  · exact ((c9_post_id_resolution "20260101120000" "" "https://example.com/nothing" 0 1).2
      (by decide) (by decide) (by decide)).2

/-- Claim C2 counterexample: two rows whose labels coincide after trimming and
lower-casing; the resolved `impressions` field carries the second (last) row's
value `2`, not the first row's value `1` as the claim asserts. -/
theorem c2_first_wins_counterexample :
    rowKvEntry [some "Impressioni", some "1"] = some ("impressioni", "1") ∧
    rowKvEntry [some " IMPRESSIONI ", some "2"] = some ("impressioni", "2") ∧
    (parse_linkedin_export
        [⟨"Rendimento", [[some "Impressioni", some "1"],
                         [some " IMPRESSIONI ", some "2"]]⟩]).impressions = some "2" ∧
    (some "2" : Option String) ≠ some "1" := by
  refine ⟨by decide, by decide, by decide, by decide⟩

/-- Claim C2 as amended: on duplicate normalized labels the label map keeps
the LAST such row's value (CPython dict assignment overwrites in place), so a
lookup of any key returns the value contributed by the last row carrying it. -/
theorem c2_last_wins (rows : List (List (Option String))) (key : String) :
    dictLookup (buildKv rows) key = lastLabelValue rows key := by
  unfold buildKv lastLabelValue
  exact dictLookup_buildKv_aux rows [] key

theorem dictInsert_key_mem :
    ∀ (d : List (String × String)) (k v : String) (e : String × String),
      e ∈ dictInsert d k v → e.1 = k ∨ ∃ v0, (e.1, v0) ∈ d := by
  intro d
  induction d with
  | nil =>
    intro k v e he
    simp only [dictInsert] at he
    cases he with
    | head => exact Or.inl rfl
    | tail _ h2 => cases h2
  | cons e0 t ih =>
    intro k v e he
    obtain ⟨k0, v0⟩ := e0
    by_cases h0 : k0 = k
    · subst h0
      simp only [dictInsert, if_pos rfl] at he
      cases he with
      | head => exact Or.inl rfl
      | tail _ h2 => exact Or.inr ⟨e.2, List.mem_cons_of_mem _ h2⟩
    · simp only [dictInsert, if_neg h0] at he
      cases he with
      | head => exact Or.inr ⟨v0, List.mem_cons_self _ _⟩
      | tail _ h2 =>
        rcases ih k v e h2 with h | ⟨v1, hv1⟩
        · exact Or.inl h
        · exact Or.inr ⟨v1, List.mem_cons_of_mem _ hv1⟩

theorem buildKv_keys_not (pat : String) :
    ∀ (rows : List (List (Option String))) (acc : List (String × String)),
      (∀ r ∈ rows, ∀ k v, rowKvEntry r = some (k, v) → substrS pat k = false) →
      (∀ e ∈ acc, substrS pat e.1 = false) →
      ∀ e ∈ rows.foldl kvStep acc, substrS pat e.1 = false := by
  intro rows
  induction rows with
  | nil => intro acc _ hacc e he; exact hacc e he
  | cons r t ih =>
    intro acc hall hacc e he
    simp only [List.foldl_cons] at he
    refine ih (kvStep acc r) (fun r2 h2 => hall r2 (List.mem_cons_of_mem _ h2)) ?_ e he
    intro e2 he2
    unfold kvStep at he2
    cases hr : rowKvEntry r with
    | none =>
      rw [hr] at he2
      exact hacc e2 he2
    | some kv =>
      obtain ⟨k, v⟩ := kv
      rw [hr] at he2
      rcases dictInsert_key_mem acc k v e2 he2 with h | ⟨v1, hv1⟩
      · rw [h]
        exact hall r (List.mem_cons_self _ _) k v hr
      · exact hacc (e2.1, v1) hv1

theorem get_metric_impressioni_resolved
    (rows : List (List (Option String))) (r0 : List (Option String))
    (pre post : List (List (Option String))) (k0 : String)
    (hrows : rows = pre ++ r0 :: post)
    (hrow : rowKvEntry r0 = some (k0, "1.234"))
    (hk0 : substrS "impressioni" k0 = true)
    (hothers : ∀ r ∈ pre ++ post, ∀ k v, rowKvEntry r = some (k, v) →
        substrS "impressioni" k = false) :
    get_metric (buildKv rows) ["impressioni", "impressions"] = "1.234" := by
  subst hrows
  have hpre : ∀ r ∈ pre, ∀ k v, rowKvEntry r = some (k, v) →
      substrS "impressioni" k = false :=
    fun r hr => hothers r (List.mem_append_left _ hr)
  have hpost : ∀ r ∈ post, ∀ k v, rowKvEntry r = some (k, v) →
      substrS "impressioni" k = false :=
    fun r hr => hothers r (List.mem_append_right _ hr)
  have hallpre : ∀ e ∈ pre.foldl kvStep [], substrS "impressioni" e.1 = false :=
    buildKv_keys_not "impressioni" pre [] hpre (by intro e he; cases he)
  have hstep : kvStep (pre.foldl kvStep []) r0
      = dictInsert (pre.foldl kvStep []) k0 "1.234" := by
    unfold kvStep
    rw [hrow]
  have hfind :
      (buildKv (pre ++ r0 :: post)).findSome? (fun e =>
        if substrS "impressioni" e.1 then some (if e.2 = "nan" then "" else e.2) else none)
      = some "1.234" := by
    unfold buildKv
    rw [List.foldl_append, List.foldl_cons, hstep,
      findSome_metric_foldl_irrel "impressioni" post _ hpost,
      findSome_metric_dictInsert_hit "impressioni" _ k0 "1.234" hallpre hk0]
    decide
  unfold get_metric
  have hpy : pyLower "impressioni" = "impressioni" := by decide
  simp only [List.findSome?, hpy, hfind, Option.getD_some]

/-- Claim C1 counterexample: a workbook with a single performance sheet whose
only row is label `Impressioni`, value `1.234`, and no demographics sheet.
The assembled record keeps the raw value `1.234` for `impressions` — not the
separator-stripped `1234` the claim asserts — while the six demographic
fields are indeed empty. -/
theorem c1_impressions_counterexample :
    normLabel [some "Impressioni", some "1.234"] = "Impressioni" ∧
    normValue [some "Impressioni", some "1.234"] = "1.234" ∧
    (assembleExportRecord "https://post" "2026-01-01 00:00" "" ""
        (parse_linkedin_export
          [⟨"RENDIMENTO", [[some "Impressioni", some "1.234"]]⟩])).impressions = "1.234" ∧
    (assembleExportRecord "https://post" "2026-01-01 00:00" "" ""
        (parse_linkedin_export
          [⟨"RENDIMENTO", [[some "Impressioni", some "1.234"]]⟩])).impressions ≠ "1234" ∧
    (assembleExportRecord "https://post" "2026-01-01 00:00" "" ""
        (parse_linkedin_export
          [⟨"RENDIMENTO", [[some "Impressioni", some "1.234"]]⟩])).demo_seniority = "" := by
  refine ⟨by decide, by decide, by decide, by decide, by decide⟩

/-- Claim C1 as amended: for a workbook with exactly one sheet, whose
lower-cased name contains no demographics keyword, and whose rows contain
exactly one contributing row with a normalized label containing
`impressioni` — that row having both cells present and stripped value
`1.234` — the assembled record has `impressions` equal to the raw string
`1.234` (the export path performs no separator stripping) and every one of
the six demographic fields equal to the empty string. -/
theorem c1_assembled_record (sheet : Sheet) (url ts pt au k0 : String)
    (r0 : List (Option String)) (pre post : List (List (Option String)))
    (hname1 : substrS "demograf" (pyLower sheet.name) = false)
    (hname2 : substrS "demographic" (pyLower sheet.name) = false)
    (hcells : sheet.cells = pre ++ r0 :: post)
    (hrow : rowKvEntry r0 = some (k0, "1.234"))
    (hk0 : substrS "impressioni" k0 = true)
    (hwide : 2 ≤ r0.length)
    (hothers : ((pre ++ post).all (fun r =>
        match rowKvEntry r with
        | some (k, _) => !(substrS "impressioni" k)
        | none => true)) = true) :
    (assembleExportRecord url ts pt au (parse_linkedin_export [sheet])).impressions
      = "1.234" ∧
    (assembleExportRecord url ts pt au (parse_linkedin_export [sheet])).demo_seniority = "" ∧
    (assembleExportRecord url ts pt au (parse_linkedin_export [sheet])).demo_role = "" ∧
    (assembleExportRecord url ts pt au (parse_linkedin_export [sheet])).demo_industry = "" ∧
    (assembleExportRecord url ts pt au (parse_linkedin_export [sheet])).demo_company_size
      = "" ∧
    (assembleExportRecord url ts pt au (parse_linkedin_export [sheet])).demo_location = "" ∧
    (assembleExportRecord url ts pt au (parse_linkedin_export [sheet])).demo_company = "" := by
  have h3 : sheet.cells ≠ [] := by
    rw [hcells]
    simp
  have hr0mem : r0 ∈ sheet.cells := by
    rw [hcells]
    exact List.mem_append_right _ (List.mem_cons_self _ _)
  have h4 : ¬ ncolsOf sheet.cells < 2 := by
    have hle := le_ncolsOf_of_mem sheet.cells r0 hr0mem
    omega
  have hothersP : ∀ r ∈ pre ++ post, ∀ k v, rowKvEntry r = some (k, v) →
      substrS "impressioni" k = false := by
    intro r hr k v hrk
    have hp := List.all_eq_true.mp hothers r hr
    rw [hrk] at hp
    simpa using hp
  have hsteps := parseExportSteps_single sheet hname1 hname2 h3 h4
  have hparse : parse_linkedin_export [sheet] = (parseExportSteps [sheet]).1 := by
    unfold parse_linkedin_export
    rw [hsteps]
  rw [hsteps] at hparse
  have himp := get_metric_impressioni_resolved sheet.cells r0 pre post k0 hcells hrow hk0 hothersP
  rw [hparse]
  unfold assembleExportRecord
  simp [himp]

theorem c1_assembled_record_witness :
    rowKvEntry [some "Impressioni", some "1.234"] = some ("impressioni", "1.234") ∧
    substrS "impressioni" "impressioni" = true ∧
    (assembleExportRecord "https://post" "2026-01-01 00:00" "" ""
        (parse_linkedin_export
          [⟨"RENDIMENTO", [[some "URL post", some "https://u"],
                           [some "Impressioni", some "1.234"],
                           [some "Reazioni", some "7"]]⟩])).impressions = "1.234" ∧
    (assembleExportRecord "https://post" "2026-01-01 00:00" "" ""
        (parse_linkedin_export
          [⟨"RENDIMENTO", [[some "URL post", some "https://u"],
                           [some "Impressioni", some "1.234"],
                           [some "Reazioni", some "7"]]⟩])).demo_company = "" := by
  refine ⟨by decide, by decide, ?_, ?_⟩
  · exact (c1_assembled_record ⟨"RENDIMENTO", _⟩ "https://post" "2026-01-01 00:00" "" ""
      "impressioni" [some "Impressioni", some "1.234"]
      [[some "URL post", some "https://u"]] [[some "Reazioni", some "7"]]
      (by decide) (by decide) rfl (by decide) (by decide) (by decide) (by decide)).1
  · exact (c1_assembled_record ⟨"RENDIMENTO", _⟩ "https://post" "2026-01-01 00:00" "" ""
      "impressioni" [some "Impressioni", some "1.234"]
      [[some "URL post", some "https://u"]] [[some "Reazioni", some "7"]]
      (by decide) (by decide) rfl (by decide) (by decide) (by decide) (by decide)).2.2.2.2.2.2
